import Mathlib

/-!
Shallow embedding of the third-person character controller in `src/App.jsx`
(components `CameraController`, `Player`, `checkGrounded`) and proofs of the
specification's claims about it.

Conventions:
* JS numbers are modelled as exact reals (`ℝ`); quantities of the ground
  probe (positions, offsets, hit distances, the 0.55 threshold) are all
  rational in the source, so that module is modelled over `ℚ` to keep it
  computable.
* The scene ray query `raycaster.intersectObjects(scene.children, true)`
  is modelled as an oracle `Vec3Q → List Hit` mapping a ray start point to
  the ordered hit records returned for the downward ray from that point
  (only the fields the code reads are kept: `object` and `distance`).
* React `useState`: `setIsGrounded g` does not change the value the current
  closure reads; the new value is only visible after a later render, so a
  frame is modelled as a function of the flag captured at render time plus
  the probe result computed this frame, returning the velocity command and
  the flag that will be committed for later renders.
-/

/- ---------------------------------------------------------------- -/
/- GroundProbe (`checkGrounded`, src/App.jsx lines 126-169), over ℚ. -/
/- ---------------------------------------------------------------- -/

/-- A point/vector with rational coordinates, used for the ground probe. -/
structure Vec3Q where
  x : ℚ
  y : ℚ
  z : ℚ
deriving DecidableEq

/-- Componentwise addition (`THREE.Vector3.add`). -/
def Vec3Q.add (a b : Vec3Q) : Vec3Q :=
  ⟨a.x + b.x, a.y + b.y, a.z + b.z⟩

/-- One record of `raycaster.intersectObjects`: the intersected scene object
(abstracted to a numeric identity) and the distance from the ray origin. -/
structure Hit where
  object : ℕ
  distance : ℚ
deriving DecidableEq

/-- The `offsets` array of `checkGrounded` (lines 133-138): four corner
offsets only, even though the comment above it says "center + 4 corners". -/
def probeOffsets : List Vec3Q :=
  [⟨1/2, 0, 1/2⟩, ⟨-(1/2), 0, 1/2⟩, ⟨1/2, 0, -(1/2)⟩, ⟨-(1/2), 0, -(1/2)⟩]

/-- The hit-distance threshold `0.55` of line 163. -/
def hitThreshold : ℚ := 55/100

/-- `checkGrounded` (lines 126-169): starting from `grounded = false`, loop
over the offsets; for each, cast a downward ray from `origin + offset` and
set `grounded` to true when some hit of that ray has distance at most 0.55.
Every hit returned by the scene query counts, with no filtering by object.
The returned Bool is the value passed to `setIsGrounded`.  (The early
`return false` when the body handle is missing, and the debug-line
bookkeeping, are not modelled: they do not affect the returned flag.) -/
def checkGrounded (origin : Vec3Q) (intersect : Vec3Q → List Hit) : Bool :=
  probeOffsets.foldl
    (fun grounded off =>
      if (intersect (origin.add off)).any (fun h => decide (h.distance ≤ hitThreshold)) then
        true
      else grounded)
    false

/-- Modelled from the spec: the sample points §4.2 describes, "the character
footprint center plus its four horizontal corner offsets". -/
def probeOffsetsSpec : List Vec3Q :=
  ⟨0, 0, 0⟩ :: probeOffsets

/-- Modelled from the spec: the ground probe §4.2 describes, identical to
`checkGrounded` except that it also casts the footprint-center ray. -/
def checkGroundedSpec (origin : Vec3Q) (intersect : Vec3Q → List Hit) : Bool :=
  probeOffsetsSpec.foldl
    (fun grounded off =>
      if (intersect (origin.add off)).any (fun h => decide (h.distance ≤ hitThreshold)) then
        true
      else grounded)
    false

/-- A scene whose downward rays hit the ground (object 1) at distance 0.3,
but only for a ray starting at the footprint center (x-coordinate 0); the
four corner rays (x-coordinate ±0.5) see nothing. -/
def centerOnlyRaycast : Vec3Q → List Hit :=
  fun p => if p.x = 0 then [⟨1, 3/10⟩] else []

/-- The scene-object identity standing for the player's own mesh
(`<mesh ref=boxRef>`, line 209, a child of the scene). -/
def playerObjectId : ℕ := 0

/-- A ray query in which every reported hit is against the player's own
mesh, at distance 0.5 (a downward corner ray grazing the body's own bottom
face corner, which lies exactly 0.5 below the ray origin). -/
def selfOnlyRaycast : Vec3Q → List Hit :=
  fun _ => [⟨playerObjectId, 1/2⟩]

/- ---------------------------------------------------------------- -/
/- Real-valued vectors for the camera and the player controller.     -/
/- ---------------------------------------------------------------- -/

/-- A point/vector with real coordinates (`THREE.Vector3`). -/
structure Vec3R where
  x : ℝ
  y : ℝ
  z : ℝ

noncomputable section

open Classical

/-- Componentwise addition (`THREE.Vector3.add`). -/
def Vec3R.add (a b : Vec3R) : Vec3R :=
  ⟨a.x + b.x, a.y + b.y, a.z + b.z⟩

/-- Componentwise subtraction (`THREE.Vector3.sub`). -/
def Vec3R.sub (a b : Vec3R) : Vec3R :=
  ⟨a.x - b.x, a.y - b.y, a.z - b.z⟩

/-- Scalar multiple (`THREE.Vector3.multiplyScalar`). -/
def Vec3R.scale (v : Vec3R) (c : ℝ) : Vec3R :=
  ⟨c * v.x, c * v.y, c * v.z⟩

/-- `new THREE.Vector3()`. -/
def Vec3R.zero : Vec3R := ⟨0, 0, 0⟩

/-- `THREE.Vector3.lengthSq`. -/
def Vec3R.lengthSq (v : Vec3R) : ℝ :=
  v.x ^ 2 + v.y ^ 2 + v.z ^ 2

/-- `THREE.Vector3.length`. -/
def Vec3R.length (v : Vec3R) : ℝ :=
  Real.sqrt v.lengthSq

/-- `THREE.Vector3.normalize`, which is `divideScalar(this.length() || 1)`:
a zero-length vector is divided by 1, i.e. left unchanged (the guard the
spec's "no division by zero" clause refers to). -/
def Vec3R.normalize (v : Vec3R) : Vec3R :=
  v.scale (1 / (if v.length = 0 then 1 else v.length))

/-- `THREE.Vector3.crossVectors`. -/
def Vec3R.cross (a b : Vec3R) : Vec3R :=
  ⟨a.y * b.z - a.z * b.y, a.z * b.x - a.x * b.z, a.x * b.y - a.y * b.x⟩

/-- World up, `new THREE.Vector3(0, 1, 0)` (line 184). -/
def upVec : Vec3R := ⟨0, 1, 0⟩

/-- `THREE.Vector3.lerp(v, alpha)`: each component moves from `p` toward `v`
by the fraction `alpha`. -/
def vec3Lerp (p v : Vec3R) (alpha : ℝ) : Vec3R :=
  ⟨p.x + (v.x - p.x) * alpha, p.y + (v.y - p.y) * alpha, p.z + (v.z - p.z) * alpha⟩

/-- `THREE.MathUtils.lerp(x, y, t) = (1 - t) * x + t * y` (no clamping). -/
def mathLerp (x y t : ℝ) : ℝ :=
  (1 - t) * x + t * y

/-- Euclidean distance between two points. -/
def dist3 (a b : Vec3R) : ℝ :=
  Real.sqrt ((a.x - b.x) ^ 2 + (a.y - b.y) ^ 2 + (a.z - b.z) ^ 2)

/- ---------------------------------------------------------------- -/
/- CameraController (src/App.jsx lines 13-95).                       -/
/- ---------------------------------------------------------------- -/

/-- `CAMERA_CONSTANTS.MIN_DISTANCE` (line 16). -/
def MIN_DISTANCE : ℝ := 2

/-- `CAMERA_CONSTANTS.MAX_DISTANCE` (line 17). -/
def MAX_DISTANCE : ℝ := 50

/-- `CAMERA_CONSTANTS.ZOOM_SPEED` (line 18), 0.5. -/
def ZOOM_SPEED : ℝ := 1/2

/-- `CAMERA_CONSTANTS.MOUSE_SENSITIVITY` (line 19), 0.002. -/
def MOUSE_SENSITIVITY : ℝ := 2/1000

/-- `CAMERA_CONSTANTS.LERP_FACTOR` (line 20), 0.1. -/
def LERP_FACTOR : ℝ := 1/10

/-- `CAMERA_CONSTANTS.MAX_PITCH` (line 21), π/2 − 0.1. -/
def MAX_PITCH : ℝ := Real.pi / 2 - 1/10

/-- `CAMERA_CONSTANTS.MIN_PITCH` (line 22), 0.1. -/
def MIN_PITCH : ℝ := 1/10

/-- `onMouseMove` (lines 44-52), on the pointer-locked path: yaw and pitch
each decrease by the mouse delta times the sensitivity, then pitch is
clamped via `Math.max(MIN_PITCH, Math.min(MAX_PITCH, pitch))`.  Returns the
new (yaw, pitch). -/
def onMouseMove (yaw pitch dx dy : ℝ) : ℝ × ℝ :=
  (yaw - dx * MOUSE_SENSITIVITY,
   max MIN_PITCH (min MAX_PITCH (pitch - dy * MOUSE_SENSITIVITY)))

/-- `onWheel` (lines 53-62): the new orbit distance, i.e.
`Math.min(MAX_DISTANCE, Math.max(MIN_DISTANCE, distance + deltaY * 0.01 * ZOOM_SPEED))`. -/
def onWheel (distance deltaY : ℝ) : ℝ :=
  min MAX_DISTANCE (max MIN_DISTANCE (distance + deltaY * (1/100) * ZOOM_SPEED))

/-- The desired camera position of lines 83-85: spherical-to-Cartesian
around the target from yaw, pitch and distance. -/
def sphericalPos (target : Vec3R) (yaw pitch distance : ℝ) : Vec3R :=
  ⟨target.x + distance * Real.sin pitch * Real.sin yaw,
   target.y + distance * Real.cos pitch,
   target.z + distance * Real.sin pitch * Real.cos yaw⟩

/-- One `CameraController.useFrame` position update (lines 76-92, target
present): `camera.position.lerp(desired, LERP_FACTOR)`. -/
def cameraFrame (pos target : Vec3R) (yaw pitch distance : ℝ) : Vec3R :=
  vec3Lerp pos (sphericalPos target yaw pitch distance) LERP_FACTOR

/- ---------------------------------------------------------------- -/
/- Player controller (src/App.jsx lines 171-206).                    -/
/- ---------------------------------------------------------------- -/

/-- The movement/jump keys the frame reads from `window.keys`. -/
structure Keys where
  w : Bool
  s : Bool
  d : Bool
  a : Bool
  space : Bool

/-- `const speed = 20` (line 173). -/
def speed : ℝ := 20

/-- `const airControl = 0.2` (line 174). -/
def airControl : ℝ := 2/10

/-- `const jumpStrength = 20` (line 175). -/
def jumpStrength : ℝ := 20

/-- `const gravity = -20` (line 176). -/
def gravity : ℝ := -20

/-- Lines 178-181: the camera's world direction with `y` zeroed and then
normalized. -/
def horizForward (camDir : Vec3R) : Vec3R :=
  Vec3R.normalize ⟨camDir.x, 0, camDir.z⟩

/-- Lines 183-184: `right = cross(forward, up).normalize()`. -/
def rightOf (fwd : Vec3R) : Vec3R :=
  (fwd.cross upVec).normalize

/-- Lines 188-192: `moveDir` starts at zero and accumulates ±forward/±right
for each held key, in source order. -/
def moveDirRaw (k : Keys) (fwd rgt : Vec3R) : Vec3R :=
  let m := Vec3R.zero
  let m := if k.w then m.add fwd else m
  let m := if k.s then m.sub fwd else m
  let m := if k.d then m.add rgt else m
  let m := if k.a then m.sub rgt else m
  m

/-- Line 193: the accumulated `moveDir`, normalized. -/
def moveDirOf (k : Keys) (fwd rgt : Vec3R) : Vec3R :=
  Vec3R.normalize (moveDirRaw k fwd rgt)

/-- One `Player.useFrame` tick (lines 171-206).  `isGroundedRender` is the
`isGrounded` value the callback's closure reads — the React state committed
at the last render; `probe` is the result `checkGrounded()` computes (and
passes to `setIsGrounded`) this frame; `v` is the velocity mirrored from
the physics engine; the result is the velocity written by
`api.velocity.set(vx, vy, vz)` paired with the grounded flag that will be
committed for later renders. -/
def playerFrame (isGroundedRender : Bool) (probe : Bool) (k : Keys)
    (camDir : Vec3R) (v : Vec3R) (delta : ℝ) : Vec3R × Bool :=
  let fwd := horizForward camDir
  let rgt := rightOf fwd
  let moveDir := moveDirOf k fwd rgt
  let cmd : Vec3R :=
    if isGroundedRender then
      ⟨moveDir.x * speed, if k.space then jumpStrength else 0, moveDir.z * speed⟩
    else
      ⟨mathLerp v.x (moveDir.x * speed) (airControl * delta * 10),
       v.y + gravity * delta,
       mathLerp v.z (moveDir.z * speed) (airControl * delta * 10)⟩
  (cmd, probe)

/-- No movement or jump key held. -/
def kNone : Keys := ⟨false, false, false, false, false⟩

/-- Only the jump key (space) held. -/
def kJump : Keys := ⟨false, false, false, false, true⟩

end

/- ---------------------------------------------------------------- -/
/- Helper lemmas.                                                    -/
/- ---------------------------------------------------------------- -/

/-- Normalizing the zero vector leaves it unchanged (the `length() || 1`
guard in `THREE.Vector3.normalize`). -/
theorem Vec3R.normalize_zero : Vec3R.normalize ⟨0, 0, 0⟩ = (⟨0, 0, 0⟩ : Vec3R) := by
  simp [Vec3R.normalize, Vec3R.length, Vec3R.lengthSq, Vec3R.scale]

/-- Two points are equal when all componentwise differences vanish. -/
theorem Vec3R.ext_sub (a b : Vec3R) (hx : a.x - b.x = 0) (hy : a.y - b.y = 0)
    (hz : a.z - b.z = 0) : a = b := by
  obtain ⟨a1, a2, a3⟩ := a
  obtain ⟨b1, b2, b3⟩ := b
  dsimp only at hx hy hz
  simp only [Vec3R.mk.injEq]
  exact ⟨by linarith, by linarith, by linarith⟩

/-- For an interpolation parameter in [0, 1], `mathLerp` stays between its
endpoints. -/
theorem lerp_mem_uIcc (x y t : ℝ) (h0 : 0 ≤ t) (h1 : t ≤ 1) :
    mathLerp x y t ∈ Set.uIcc x y := by
  rcases le_total x y with hxy | hxy
  · rw [Set.uIcc_of_le hxy, Set.mem_Icc]
    constructor
    · simp only [mathLerp]
      nlinarith
    · simp only [mathLerp]
      nlinarith
  · rw [Set.uIcc_of_ge hxy, Set.mem_Icc]
    constructor
    · simp only [mathLerp]
      nlinarith
    · simp only [mathLerp]
      nlinarith

/-- For an interpolation parameter above 1 and distinct endpoints,
`mathLerp` lands strictly on the far side of `y` as seen from `x`. -/
theorem lerp_beyond (x y t : ℝ) (ht : 1 < t) (hne : x ≠ y) :
    0 < (mathLerp x y t - y) * (y - x) := by
  have hyx : y - x ≠ 0 := sub_ne_zero.mpr (Ne.symm hne)
  have h2 : 0 < (y - x) ^ 2 :=
    lt_of_le_of_ne (sq_nonneg _) (Ne.symm (pow_ne_zero 2 hyx))
  have hfact : (mathLerp x y t - y) * (y - x) = (t - 1) * (y - x) ^ 2 := by
    simp only [mathLerp]
    ring
  rw [hfact]
  exact mul_pos (by linarith) h2

/- ---------------------------------------------------------------- -/
/- Claim theorems.                                                   -/
/- ---------------------------------------------------------------- -/

/-- C1: the claim says the character is grounded iff at least one of five
downward rays (footprint center + four corners) hits within 0.55, and the
code's own comment says "center + 4 corners"; but the `offsets` array holds
only the four corner rays.  In a scene whose only hit (at distance 0.3) is
on the center ray, the code reports not grounded while the five-ray probe
of the spec reports grounded. -/
theorem ground_probe_missing_center_ray :
    checkGrounded ⟨0, 0, 0⟩ centerOnlyRaycast = false
    ∧ checkGroundedSpec ⟨0, 0, 0⟩ centerOnlyRaycast = true := by
  constructor
  · norm_num [checkGrounded, probeOffsets, centerOnlyRaycast, Vec3Q.add, hitThreshold]
  · norm_num [checkGroundedSpec, probeOffsetsSpec, probeOffsets, centerOnlyRaycast,
      Vec3Q.add, hitThreshold]

/-- C3: the claim says rays never count an intersection with the character's
own collider and that zero intersections yield not-grounded.  The code
counts every hit of `intersectObjects(scene.children, true)` — a set that
contains the player's own mesh — with no filtering by object, so a query
whose every hit is the player's own mesh at distance 0.5 still makes it
grounded; zero intersections do yield not-grounded. -/
theorem ground_probe_counts_self_intersection :
    checkGrounded ⟨0, 0, 0⟩ selfOnlyRaycast = true
    ∧ (∀ p : Vec3Q, (selfOnlyRaycast p).all (fun h => decide (h.object = playerObjectId)) = true)
    ∧ checkGrounded ⟨0, 0, 0⟩ (fun _ => []) = false := by
  refine ⟨?_, ?_, ?_⟩
  · norm_num [checkGrounded, probeOffsets, selfOnlyRaycast, Vec3Q.add, hitThreshold]
  · intro p
    norm_num [selfOnlyRaycast, playerObjectId]
  · norm_num [checkGrounded, probeOffsets, Vec3Q.add]

/-- C2: the claim says the grounded/airborne branch uses the GroundProbe
result of the same frame.  In the code the branch reads the `isGrounded`
value captured at the last React render (`setIsGrounded` only takes effect
at a later render), so the velocity command is independent of this frame's
probe result; at a landing frame (stale flag false, fresh probe true, jump
held, vy = 0, delta = 0.1) the code outputs vy = −2 where the same-frame
semantics of the claim outputs vy = jumpStrength. -/
theorem grounded_branch_uses_stale_flag :
    (∀ (g p p' : Bool) (k : Keys) (camDir v : Vec3R) (delta : ℝ),
        (playerFrame g p k camDir v delta).1 = (playerFrame g p' k camDir v delta).1)
    ∧ (playerFrame false true kJump ⟨0, 0, -1⟩ ⟨0, 0, 0⟩ (1/10)).2 = true
    ∧ (playerFrame false true kJump ⟨0, 0, -1⟩ ⟨0, 0, 0⟩ (1/10)).1.y = -2
    ∧ (playerFrame true true kJump ⟨0, 0, -1⟩ ⟨0, 0, 0⟩ (1/10)).1.y = jumpStrength := by
  refine ⟨?_, rfl, ?_, ?_⟩
  · intro g p p' k camDir v delta
    simp [playerFrame]
  · simp [playerFrame, gravity]
    norm_num
  · simp [playerFrame, kJump]

/-- C4: while the grounded branch is taken, the velocity written to the
physics engine is (moveDir.x * speed, vy, moveDir.z * speed) with
vy = jumpStrength when the jump key is held this frame and 0 otherwise; in
particular, with the jump key held the command's vy is jumpStrength on
every such frame (re-armed each frame). -/
theorem grounded_velocity_formula (p : Bool) (k : Keys) (camDir v : Vec3R) (delta : ℝ) :
    (playerFrame true p k camDir v delta).1
      = ⟨(moveDirOf k (horizForward camDir) (rightOf (horizForward camDir))).x * speed,
         if k.space then jumpStrength else 0,
         (moveDirOf k (horizForward camDir) (rightOf (horizForward camDir))).z * speed⟩
    ∧ (playerFrame true p ⟨k.w, k.s, k.d, k.a, true⟩ camDir v delta).1.y = jumpStrength := by
  constructor
  · simp [playerFrame]
  · simp [playerFrame]

/-- C5: on an airborne frame with elapsed time delta the vertical velocity
command is exactly the previous vertical velocity plus gravity * delta,
with gravity = −20; for delta = 0.1 it decreases by exactly 2. -/
theorem airborne_gravity_step (p : Bool) (k : Keys) (camDir v : Vec3R) (delta : ℝ) :
    (playerFrame false p k camDir v delta).1.y = v.y + gravity * delta
    ∧ gravity = -20
    ∧ (playerFrame false p k camDir v (1/10)).1.y = v.y - 2 := by
  refine ⟨by simp [playerFrame], by norm_num [gravity], ?_⟩
  simp [playerFrame, gravity]
  ring

/-- C6: a mouse-move update decreases yaw by dx * sensitivity and pitch by
dy * sensitivity before clamping, and the resulting pitch always lies in
[MIN_PITCH, MAX_PITCH] whatever the magnitude or sign of the deltas. -/
theorem mouse_update_pitch_clamped (yaw pitch dx dy : ℝ) :
    (onMouseMove yaw pitch dx dy).1 = yaw - dx * MOUSE_SENSITIVITY
    ∧ (onMouseMove yaw pitch dx dy).2
        = max MIN_PITCH (min MAX_PITCH (pitch - dy * MOUSE_SENSITIVITY))
    ∧ MIN_PITCH ≤ (onMouseMove yaw pitch dx dy).2
    ∧ (onMouseMove yaw pitch dx dy).2 ≤ MAX_PITCH := by
  have hpi : (3 : ℝ) < Real.pi := Real.pi_gt_three
  have hminmax : MIN_PITCH ≤ MAX_PITCH := by
    simp only [MIN_PITCH, MAX_PITCH]
    linarith
  refine ⟨rfl, rfl, le_max_left _ _, ?_⟩
  exact max_le hminmax (min_le_left _ _)

/-- C7: a wheel event updates the distance to
clamp(distance + deltaY * 0.01 * zoomSpeed, MIN_DISTANCE, MAX_DISTANCE);
the result always lies in [MIN_DISTANCE, MAX_DISTANCE], and deltaY = +100
(zoomSpeed 0.5, scale 0.01) adds exactly 0.5 when no clamp binds. -/
theorem wheel_distance_clamped (dist d : ℝ) :
    onWheel dist d = min MAX_DISTANCE (max MIN_DISTANCE (dist + d * (1/100) * ZOOM_SPEED))
    ∧ MIN_DISTANCE ≤ onWheel dist d
    ∧ onWheel dist d ≤ MAX_DISTANCE
    ∧ (MIN_DISTANCE ≤ dist + 1/2 → dist + 1/2 ≤ MAX_DISTANCE →
        onWheel dist 100 = dist + 1/2) := by
  have hmm : MIN_DISTANCE ≤ MAX_DISTANCE := by
    norm_num [MIN_DISTANCE, MAX_DISTANCE]
  refine ⟨rfl, ?_, ?_, ?_⟩
  · exact le_min hmm (le_max_left _ _)
  · exact min_le_left _ _
  · intro h1 h2
    have harg : dist + (100 : ℝ) * (1/100) * ZOOM_SPEED = dist + 1/2 := by
      norm_num [ZOOM_SPEED]
    rw [onWheel, harg, max_eq_right h1, min_eq_right h2]

/-- Witness for C7 at distance 5, wheel delta +100: the distance becomes
5.5 and stays within the clamp bounds. -/
theorem wheel_distance_clamped_w :
    onWheel 5 100 = min MAX_DISTANCE (max MIN_DISTANCE ((5 : ℝ) + 100 * (1/100) * ZOOM_SPEED))
    ∧ MIN_DISTANCE ≤ onWheel 5 100
    ∧ onWheel 5 100 ≤ MAX_DISTANCE
    ∧ onWheel 5 100 = 5 + 1/2 := by
  obtain ⟨ha, hb, hc, hd⟩ := wheel_distance_clamped 5 100
  exact ⟨ha, hb, hc, hd (by norm_num [MIN_DISTANCE]) (by norm_num [MAX_DISTANCE])⟩

/-- C8: when the held movement keys accumulate to the zero vector, the
normalization guard leaves moveDir equal to the zero vector (no division by
zero), so the grounded velocity command is exactly (0, jumpOrZero, 0). -/
theorem zero_movement_grounded_command (p : Bool) (k : Keys) (camDir v : Vec3R) (delta : ℝ)
    (h : moveDirRaw k (horizForward camDir) (rightOf (horizForward camDir)) = Vec3R.zero) :
    moveDirOf k (horizForward camDir) (rightOf (horizForward camDir)) = Vec3R.zero
    ∧ (playerFrame true p k camDir v delta).1
        = ⟨0, if k.space then jumpStrength else 0, 0⟩ := by
  have hmd : moveDirOf k (horizForward camDir) (rightOf (horizForward camDir)) = Vec3R.zero := by
    rw [moveDirOf, h]
    simp [Vec3R.zero, Vec3R.normalize_zero]
  refine ⟨hmd, ?_⟩
  simp [playerFrame, hmd, Vec3R.zero]

/-- Witness for C8 with no keys held: the accumulated movement vector is
zero and the grounded command is exactly (0, jumpOrZero, 0). -/
theorem zero_movement_grounded_command_w :
    moveDirOf kNone (horizForward ⟨0, 0, -1⟩) (rightOf (horizForward ⟨0, 0, -1⟩)) = Vec3R.zero
    ∧ (playerFrame true true kNone ⟨0, 0, -1⟩ ⟨0, 0, 0⟩ 1).1
        = ⟨0, if kNone.space then jumpStrength else 0, 0⟩ :=
  zero_movement_grounded_command true kNone ⟨0, 0, -1⟩ ⟨0, 0, 0⟩ 1 (by simp [moveDirRaw, kNone])

/-- C9: with a fixed target and no input, one camera update moves the
camera so that its Euclidean distance to the ideal spherical position
implied by the current yaw/pitch/distance is multiplied by exactly
(1 − LERP_FACTOR), hence strictly decreases whenever the camera is not
already at that point. -/
theorem camera_update_contracts (pos target : Vec3R) (yaw pitch d : ℝ)
    (hne : pos ≠ sphericalPos target yaw pitch d) :
    dist3 (cameraFrame pos target yaw pitch d) (sphericalPos target yaw pitch d)
      = (1 - LERP_FACTOR) * dist3 pos (sphericalPos target yaw pitch d)
    ∧ dist3 (cameraFrame pos target yaw pitch d) (sphericalPos target yaw pitch d)
      < dist3 pos (sphericalPos target yaw pitch d) := by
  set q := sphericalPos target yaw pitch d with hqdef
  have hsum :
      ((cameraFrame pos target yaw pitch d).x - q.x) ^ 2
        + ((cameraFrame pos target yaw pitch d).y - q.y) ^ 2
        + ((cameraFrame pos target yaw pitch d).z - q.z) ^ 2
      = (9/10) ^ 2 * ((pos.x - q.x) ^ 2 + (pos.y - q.y) ^ 2 + (pos.z - q.z) ^ 2) := by
    simp only [cameraFrame, vec3Lerp, LERP_FACTOR, ← hqdef]
    ring
  have hEq : dist3 (cameraFrame pos target yaw pitch d) q = (9/10) * dist3 pos q := by
    rw [dist3, dist3, hsum, Real.sqrt_mul (by norm_num : (0:ℝ) ≤ (9/10 : ℝ) ^ 2),
      Real.sqrt_sq (by norm_num : (0:ℝ) ≤ (9/10 : ℝ))]
  have hSnn : (0:ℝ) ≤ (pos.x - q.x) ^ 2 + (pos.y - q.y) ^ 2 + (pos.z - q.z) ^ 2 := by
    positivity
  have hS : 0 < (pos.x - q.x) ^ 2 + (pos.y - q.y) ^ 2 + (pos.z - q.z) ^ 2 := by
    rcases lt_or_eq_of_le hSnn with h | h
    · exact h
    · exfalso
      apply hne
      apply Vec3R.ext_sub
      · have hsq : (pos.x - q.x) ^ 2 = 0 := by
          nlinarith [sq_nonneg (pos.y - q.y), sq_nonneg (pos.z - q.z)]
        exact (pow_eq_zero_iff (two_ne_zero)).mp hsq
      · have hsq : (pos.y - q.y) ^ 2 = 0 := by
          nlinarith [sq_nonneg (pos.x - q.x), sq_nonneg (pos.z - q.z)]
        exact (pow_eq_zero_iff (two_ne_zero)).mp hsq
      · have hsq : (pos.z - q.z) ^ 2 = 0 := by
          nlinarith [sq_nonneg (pos.x - q.x), sq_nonneg (pos.y - q.y)]
        exact (pow_eq_zero_iff (two_ne_zero)).mp hsq
  have hpos : 0 < dist3 pos q := by
    rw [dist3]
    exact Real.sqrt_pos.mpr hS
  constructor
  · rw [hEq]
    norm_num [LERP_FACTOR]
  · rw [hEq]
    linarith

/-- Witness for C9: camera at the origin, target at the origin, yaw 0,
pitch 0, distance 5 — the ideal point is (0, 5, 0), distinct from the
camera, and the update contracts the distance by the lerp factor. -/
theorem camera_update_contracts_w :
    ((⟨0, 0, 0⟩ : Vec3R) ≠ sphericalPos ⟨0, 0, 0⟩ 0 0 5)
    ∧ (dist3 (cameraFrame ⟨0, 0, 0⟩ ⟨0, 0, 0⟩ 0 0 5) (sphericalPos ⟨0, 0, 0⟩ 0 0 5)
        = (1 - LERP_FACTOR) * dist3 ⟨0, 0, 0⟩ (sphericalPos ⟨0, 0, 0⟩ 0 0 5)
      ∧ dist3 (cameraFrame ⟨0, 0, 0⟩ ⟨0, 0, 0⟩ 0 0 5) (sphericalPos ⟨0, 0, 0⟩ 0 0 5)
        < dist3 ⟨0, 0, 0⟩ (sphericalPos ⟨0, 0, 0⟩ 0 0 5)) := by
  have hne : (⟨0, 0, 0⟩ : Vec3R) ≠ sphericalPos ⟨0, 0, 0⟩ 0 0 5 := by
    intro h
    have hy := congrArg Vec3R.y h
    norm_num [sphericalPos] at hy
  exact ⟨hne, camera_update_contracts ⟨0, 0, 0⟩ ⟨0, 0, 0⟩ 0 0 5 hne⟩

/-- C10 (amended): the airborne horizontal interpolation factor is
airControl * delta * 10 = 2 * delta, unclamped; for 0 ≤ delta ≤ 0.5 the new
horizontal velocity lies between the old one and moveDir * speed, and for
delta > 0.5 it lands strictly past moveDir * speed whenever the old
velocity differs from moveDir * speed. -/
theorem air_lerp_between_or_beyond (p : Bool) (k : Keys) (camDir v : Vec3R) (d1 d2 : ℝ)
    (h0 : 0 ≤ d1) (h1 : d1 ≤ 1/2) (h2 : 1/2 < d2) :
    (∀ dl : ℝ, airControl * dl * 10 = 2 * dl)
    ∧ (playerFrame false p k camDir v d1).1.x
        ∈ Set.uIcc v.x ((moveDirOf k (horizForward camDir) (rightOf (horizForward camDir))).x * speed)
    ∧ (playerFrame false p k camDir v d1).1.z
        ∈ Set.uIcc v.z ((moveDirOf k (horizForward camDir) (rightOf (horizForward camDir))).z * speed)
    ∧ (v.x ≠ (moveDirOf k (horizForward camDir) (rightOf (horizForward camDir))).x * speed →
        0 < ((playerFrame false p k camDir v d2).1.x
              - (moveDirOf k (horizForward camDir) (rightOf (horizForward camDir))).x * speed)
            * ((moveDirOf k (horizForward camDir) (rightOf (horizForward camDir))).x * speed - v.x))
    ∧ (v.z ≠ (moveDirOf k (horizForward camDir) (rightOf (horizForward camDir))).z * speed →
        0 < ((playerFrame false p k camDir v d2).1.z
              - (moveDirOf k (horizForward camDir) (rightOf (horizForward camDir))).z * speed)
            * ((moveDirOf k (horizForward camDir) (rightOf (horizForward camDir))).z * speed - v.z)) := by
  have hfac : ∀ dl : ℝ, airControl * dl * 10 = 2 * dl := by
    intro dl
    simp [airControl]
    ring
  have hfx : ∀ dl : ℝ, (playerFrame false p k camDir v dl).1.x
      = mathLerp v.x ((moveDirOf k (horizForward camDir) (rightOf (horizForward camDir))).x * speed)
          (airControl * dl * 10) := by
    intro dl
    simp [playerFrame]
  have hfz : ∀ dl : ℝ, (playerFrame false p k camDir v dl).1.z
      = mathLerp v.z ((moveDirOf k (horizForward camDir) (rightOf (horizForward camDir))).z * speed)
          (airControl * dl * 10) := by
    intro dl
    simp [playerFrame]
  refine ⟨hfac, ?_, ?_, ?_, ?_⟩
  · rw [hfx d1, hfac d1]
    exact lerp_mem_uIcc _ _ _ (by linarith) (by linarith)
  · rw [hfz d1, hfac d1]
    exact lerp_mem_uIcc _ _ _ (by linarith) (by linarith)
  · intro hx
    rw [hfx d2, hfac d2]
    exact lerp_beyond _ _ _ (by linarith) hx
  · intro hz
    rw [hfz d2, hfac d2]
    exact lerp_beyond _ _ _ (by linarith) hz

/-- Witness for C10 with no keys held (moveDir = 0, so the target velocity
is 0), old velocity (3, 0, 3), deltas 1/4 and 1. -/
theorem air_lerp_between_or_beyond_w :
    (∀ dl : ℝ, airControl * dl * 10 = 2 * dl)
    ∧ (playerFrame false true kNone ⟨0, 0, -1⟩ ⟨3, 0, 3⟩ (1/4)).1.x
        ∈ Set.uIcc (⟨3, 0, 3⟩ : Vec3R).x
            ((moveDirOf kNone (horizForward ⟨0, 0, -1⟩) (rightOf (horizForward ⟨0, 0, -1⟩))).x * speed)
    ∧ (playerFrame false true kNone ⟨0, 0, -1⟩ ⟨3, 0, 3⟩ (1/4)).1.z
        ∈ Set.uIcc (⟨3, 0, 3⟩ : Vec3R).z
            ((moveDirOf kNone (horizForward ⟨0, 0, -1⟩) (rightOf (horizForward ⟨0, 0, -1⟩))).z * speed)
    ∧ 0 < ((playerFrame false true kNone ⟨0, 0, -1⟩ ⟨3, 0, 3⟩ 1).1.x
            - (moveDirOf kNone (horizForward ⟨0, 0, -1⟩) (rightOf (horizForward ⟨0, 0, -1⟩))).x * speed)
          * ((moveDirOf kNone (horizForward ⟨0, 0, -1⟩) (rightOf (horizForward ⟨0, 0, -1⟩))).x * speed
            - (⟨3, 0, 3⟩ : Vec3R).x)
    ∧ 0 < ((playerFrame false true kNone ⟨0, 0, -1⟩ ⟨3, 0, 3⟩ 1).1.z
            - (moveDirOf kNone (horizForward ⟨0, 0, -1⟩) (rightOf (horizForward ⟨0, 0, -1⟩))).z * speed)
          * ((moveDirOf kNone (horizForward ⟨0, 0, -1⟩) (rightOf (horizForward ⟨0, 0, -1⟩))).z * speed
            - (⟨3, 0, 3⟩ : Vec3R).z) := by
  obtain ⟨hf, hbx, hbz, hox, hoz⟩ := air_lerp_between_or_beyond true kNone ⟨0, 0, -1⟩
    ⟨3, 0, 3⟩ (1/4) 1 (by norm_num) (by norm_num) (by norm_num)
  refine ⟨hf, hbx, hbz, ?_, ?_⟩
  · exact hox (by norm_num [moveDirOf, moveDirRaw, kNone, Vec3R.normalize_zero, Vec3R.zero, speed])
  · exact hoz (by norm_num [moveDirOf, moveDirRaw, kNone, Vec3R.normalize_zero, Vec3R.zero, speed])

/-- C10 counterexample to the claim as stated: at delta = 1 > 0.5, with no
keys held (moveDir * speed = 0) and zero old velocity, the airborne lerp
returns exactly moveDir.x * speed — it does not land past it, so the
unconditional "for any delta > 0.5 it overshoots" is false. -/
theorem air_lerp_no_overshoot_when_equal :
    ((1 : ℝ) > 1/2)
    ∧ (playerFrame false true kNone ⟨0, 0, -1⟩ Vec3R.zero 1).1.x
        = (moveDirOf kNone (horizForward ⟨0, 0, -1⟩) (rightOf (horizForward ⟨0, 0, -1⟩))).x * speed := by
  constructor
  · norm_num
  · norm_num [playerFrame, mathLerp, moveDirOf, moveDirRaw, kNone, Vec3R.normalize_zero,
      Vec3R.zero, speed, airControl]
